import Mathlib

/-!
Verification of the luno-mcp MCP server core: the currency-pair
normalizer, the tool handlers, the configuration loader, and the
User-Agent decorating HTTP round tripper.

Modelling conventions:
* Go strings are Lean `String`s; all relevant inputs are ASCII, so the
  byte-level operations of the Go standard library coincide with the
  character-level models below.
* `strings.Replace`, `strings.Split`, `strings.ToUpper`,
  `strings.ToLower` and `strings.TrimSpace` are given executable models
  on `List Char` (the library versions in this toolchain do not reduce
  in the kernel).
* Fallible Go code returns `Option`/`Except`.
* The exchange client (external collaborator) is passed to each handler
  as an explicit function argument; a handler that returns a structured
  error result before reaching the client call is modelled as such.
-/

namespace LunoMcp

/-! ## Models of the Go string library -/

/-- Model of Go `strings.Replace(s, old, new, -1)` on character lists:
leftmost, non-overlapping replacement of every occurrence of `pat`.
`fuel` bounds the recursion; every step consumes at least one character
of `s`, so `fuel = s.length` suffices. -/
def replaceChars : (fuel : Nat) → List Char → List Char → List Char → List Char
  | 0, s, _, _ => s
  | _ + 1, [], _, _ => []
  | fuel + 1, c :: rest, pat, rep =>
    if pat ≠ [] ∧ pat.isPrefixOf (c :: rest) then
      rep ++ replaceChars fuel ((c :: rest).drop pat.length) pat rep
    else
      c :: replaceChars fuel rest pat rep

/-- Go `strings.Replace(s, old, new, -1)` for a nonempty pattern. -/
def goReplace (s pat rep : String) : String :=
  String.mk (replaceChars s.data.length s.data pat.data rep.data)

/-- Go `strings.ToUpper`, restricted to ASCII. -/
def goToUpper (s : String) : String :=
  String.mk (s.data.map Char.toUpper)

/-- Go `strings.ToLower`, restricted to ASCII. -/
def goToLower (s : String) : String :=
  String.mk (s.data.map Char.toLower)

/-- Model of Go `strings.Split(s, sep)` on character lists, for a
nonempty separator: split at each leftmost occurrence, keeping empty
fields.  `fuel` bounds the recursion as in `replaceChars`. -/
def splitChars : (fuel : Nat) → List Char → List Char → List (List Char)
  | 0, s, _ => [s]
  | _ + 1, [], _ => [[]]
  | fuel + 1, c :: rest, sep =>
    if sep ≠ [] ∧ sep.isPrefixOf (c :: rest) then
      [] :: splitChars fuel ((c :: rest).drop sep.length) sep
    else
      match splitChars fuel rest sep with
      | [] => [[c]]
      | h :: t => (c :: h) :: t

/-- Go `strings.Split(s, sep)` for a nonempty separator. -/
def goSplit (s sep : String) : List String :=
  (splitChars s.data.length s.data sep.data).map String.mk

/-- Go `strings.TrimSpace` (ASCII whitespace). -/
def goTrimSpace (s : String) : String :=
  String.mk (((s.data.dropWhile Char.isWhitespace).reverse.dropWhile
    Char.isWhitespace).reverse)

/-- Value of a list of decimal digit characters. -/
def digitsVal (l : List Char) : Nat :=
  l.foldl (fun acc c => acc * 10 + (c.toNat - 48)) 0

/-- Model of Go `strconv.ParseInt(s, 10, 64)`: an optional sign followed
by one or more ASCII digits, with the result in the signed 64-bit
range.  `none` models a non-nil error (syntax or range). -/
def parseInt64 (s : String) : Option Int :=
  let core : List Char → Int → Option Int := fun ds sign =>
    if ds = [] ∨ ¬ ds.all Char.isDigit then none
    else
      let v : Int := sign * (digitsVal ds : Int)
      if -(2 ^ 63) ≤ v ∧ v < 2 ^ 63 then some v else none
  match s.data with
  | [] => none
  | c :: rest =>
    if c = '+' then core rest 1
    else if c = '-' then core rest (-1)
    else core (c :: rest) 1

/-! ## Currency-pair normalizer (`internal/tools/tools.go`) -/

/-- The `currencyMappings` alias table of `normalizeCurrencyPair`, in
source (insertion) order: `BTC → XBT`, then `BITCOIN → XBT`.  In Go it
is a `map[string]string`, whose iteration order is unspecified. -/
def currencyMappings : List (String × String) :=
  [("BTC", "XBT"), ("BITCOIN", "XBT")]

/-- `normalizeCurrencyPair` (`tools.go`): strip every `-`, `_` and `/`,
convert to upper case, then replace every occurrence of each alias key
by its canonical value.  The Go code iterates the alias map with
`range`, whose order is unspecified, so the model is parametrised by
the iteration order `order`; the program's possible results are those
for `order` a permutation of `currencyMappings`. -/
def normalizeCurrencyPairWith (order : List (String × String)) (pair : String) : String :=
  let pair := goReplace pair "-" ""
  let pair := goReplace pair "_" ""
  let pair := goReplace pair "/" ""
  let pair := goToUpper pair
  order.foldl (fun acc m => goReplace acc m.1 m.2) pair

/-- `normalizeCurrencyPair` when the alias map happens to be iterated in
insertion order. -/
def normalizeCurrencyPair (pair : String) : String :=
  normalizeCurrencyPairWith currencyMappings pair

/-- Reference normalizer following the spec's words (spec 4.1): strip
all occurrences of `-`, `_`, `/`; convert to upper case; then replace
every occurrence of each alias key with its canonical value, in the
insertion order of the alias table (`BTC → XBT` first, then
`BITCOIN → XBT`). -/
def specNormalize (pair : String) : String :=
  goReplace
    (goReplace
      (goToUpper (goReplace (goReplace (goReplace pair "-" "") "_" "") "/" ""))
      "BTC" "XBT")
    "BITCOIN" "XBT"

/-! ## MCP request and configuration model -/

/-- The slice of `mcp.CallToolRequest` the handlers read: named string
and number arguments.  Numeric arguments are modelled as integers (the
handlers only ever truncate them to `int64`; no verified claim depends
on float rounding). -/
structure CallToolRequest where
  strs : List (String × String)
  nums : List (String × Int)

/-- `request.RequireString(key)`: `none` models the error return for a
missing argument. -/
def CallToolRequest.requireString (r : CallToolRequest) (key : String) : Option String :=
  (r.strs.find? (fun p => p.1 == key)).map (fun p => p.2)

/-- `request.GetString(key, default)`. -/
def CallToolRequest.getString (r : CallToolRequest) (key d : String) : String :=
  match r.requireString key with
  | some v => v
  | none => d

/-- `request.RequireFloat(key)` under the integer modelling of numeric
arguments. -/
def CallToolRequest.requireNum (r : CallToolRequest) (key : String) : Option Int :=
  (r.nums.find? (fun p => p.1 == key)).map (fun p => p.2)

/-- `request.GetFloat(key, default)` / `request.GetInt(key, default)`
under the integer modelling of numeric arguments. -/
def CallToolRequest.getNum (r : CallToolRequest) (key : String) (d : Int) : Int :=
  match r.requireNum key with
  | some v => v
  | none => d

/-- `config.Config`: the authentication flag.  The exchange client held
by the Go struct is passed to each handler model as an explicit
function argument instead. -/
structure Config where
  isAuthenticated : Bool

/-- The `ErrAPICredentialsRequired` message constant (`tools.go`). -/
def ErrAPICredentialsRequired : String :=
  "API credentials are required for this operation. Please set LUNO_API_KEY_ID and LUNO_API_SECRET environment variables."

/-! ## Tool handlers (`internal/tools/tools.go`)

Each handler makes at most one call on the exchange client; the models
below run the handler up to that call.  `HandlerStep.error msg` is a
structured error result (`mcp.NewToolResultError`) returned before any
upstream call, and `HandlerStep.call r` is the request value forwarded
to the exchange client.  Error message texts are abbreviated where the
Go code interpolates an underlying error value; no claim depends on
those texts. -/

/-- A tool handler run up to its exchange-client call. -/
inductive HandlerStep (ρ : Type) where
  | error (msg : String)
  | call (req : ρ)
deriving DecidableEq

/-- `luno.GetTickerRequest`. -/
structure GetTickerRequest where
  pair : String
deriving DecidableEq

/-- `luno.GetOrderBookRequest`. -/
structure GetOrderBookRequest where
  pair : String
deriving DecidableEq

/-- `luno.GetTickersRequest`. -/
structure GetTickersRequest where
  pair : List String
deriving DecidableEq

/-- `luno.MarketsRequest`. -/
structure MarketsRequest where
  pair : List String
deriving DecidableEq

/-- `luno.GetCandlesRequest`; times in Unix milliseconds. -/
structure GetCandlesRequest where
  pair : String
  since : Int
  duration : Int
deriving DecidableEq

/-- `luno.ListTradesRequest`; `none` models the zero `luno.Time`. -/
structure ListTradesRequest where
  pair : String
  since : Option Int
deriving DecidableEq

/-- `luno.OrderType` as used by `HandleCreateOrder`. -/
inductive OrderType where
  | bid
  | ask
deriving DecidableEq

/-- `luno.PostLimitOrderRequest`, polymorphic in the decimal type. -/
structure PostLimitOrderRequest (Dec : Type) where
  pair : String
  type : OrderType
  volume : Dec
  price : Dec

/-- `luno.StopOrderRequest`. -/
structure StopOrderRequest where
  orderId : String
deriving DecidableEq

/-- `luno.ListOrdersRequest` (the fields `HandleListOrders` sets). -/
structure ListOrdersRequest where
  pair : String
  limit : Int
deriving DecidableEq

/-- `luno.ListTransactionsRequest` (the fields the handlers set). -/
structure ListTransactionsRequest where
  id : Int
  minRow : Int
  maxRow : Int
deriving DecidableEq

/-- `HandleGetBalances` up to its `GetBalances` call (the request struct
is empty). -/
def HandleGetBalances (cfg : Config) (_r : CallToolRequest) : HandlerStep Unit :=
  if !cfg.isAuthenticated then .error ErrAPICredentialsRequired
  else .call ()

/-- `HandleGetTicker` up to its `GetTicker` call.  `order` is the alias
map iteration order (see `normalizeCurrencyPairWith`). -/
def HandleGetTicker (order : List (String × String)) (_cfg : Config)
    (r : CallToolRequest) : HandlerStep GetTickerRequest :=
  match r.requireString "pair" with
  | none => .error "getting pair from request"
  | some pair => .call ⟨normalizeCurrencyPairWith order pair⟩

/-- `HandleGetOrderBook` up to its `GetOrderBook` call. -/
def HandleGetOrderBook (order : List (String × String)) (_cfg : Config)
    (r : CallToolRequest) : HandlerStep GetOrderBookRequest :=
  match r.requireString "pair" with
  | none => .error "getting pair from request"
  | some pair => .call ⟨normalizeCurrencyPairWith order pair⟩

/-- `HandleGetTickers` up to its `GetTickers` call: the optional `pair`
argument is comma-split and each element normalized. -/
def HandleGetTickers (order : List (String × String)) (_cfg : Config)
    (r : CallToolRequest) : HandlerStep GetTickersRequest :=
  let pairsStr := r.getString "pair" ""
  let pairs :=
    if pairsStr ≠ "" then (goSplit pairsStr ",").map (normalizeCurrencyPairWith order)
    else []
  .call ⟨pairs⟩

/-- `HandleGetMarketsInfo` up to its `Markets` call. -/
def HandleGetMarketsInfo (order : List (String × String)) (_cfg : Config)
    (r : CallToolRequest) : HandlerStep MarketsRequest :=
  let pairsStr := r.getString "pair" ""
  let pairs :=
    if pairsStr ≠ "" then (goSplit pairsStr ",").map (normalizeCurrencyPairWith order)
    else []
  .call ⟨pairs⟩

/-- `HandleGetCandles` up to its `GetCandles` call.  `now` is the value
of `time.Now()` in Unix milliseconds (explicit clock input). -/
def HandleGetCandles (order : List (String × String)) (_cfg : Config) (now : Int)
    (r : CallToolRequest) : HandlerStep GetCandlesRequest :=
  match r.requireString "pair" with
  | none => .error "getting pair from request"
  | some pair0 =>
    let pair := normalizeCurrencyPairWith order pair0
    let sinceNum := r.getNum "since" 0
    let since := if sinceNum == 0 then now - 86400000 else sinceNum
    match r.requireNum "duration" with
    | none => .error "getting duration from request"
    | some duration => .call ⟨pair, since, duration⟩

/-- `HandleListTrades` up to its `ListTrades` call. -/
def HandleListTrades (order : List (String × String)) (_cfg : Config)
    (r : CallToolRequest) : HandlerStep ListTradesRequest :=
  match r.requireString "pair" with
  | none => .error "getting pair from request"
  | some pair0 =>
    let pair := normalizeCurrencyPairWith order pair0
    let sinceStr := r.getString "since" ""
    if sinceStr ≠ "" then
      match parseInt64 sinceStr with
      | none => .error "Invalid since timestamp format. Please provide a valid Unix millisecond timestamp."
      | some sinceInt => .call ⟨pair, some sinceInt⟩
    else .call ⟨pair, none⟩

/-- `HandleCreateOrder` up to its `PostLimitOrder` call.  Decimal
parsing (`decimal.NewFromString`, external library) is the abstract
`parseDecimal`.  `GetMarketInfo` is defined outside the given sources;
modelled from the spec: it fetches supplementary market information for
the (already normalized) pair from the exchange and can fail. -/
def HandleCreateOrder {Dec : Type} (order : List (String × String)) (cfg : Config)
    (parseDecimal : String → Option Dec)
    (getMarketInfo : String → Except String String)
    (r : CallToolRequest) : HandlerStep (PostLimitOrderRequest Dec) :=
  if !cfg.isAuthenticated then .error ErrAPICredentialsRequired
  else
    match r.requireString "pair" with
    | none => .error "getting pair from request"
    | some pair0 =>
      let pair := normalizeCurrencyPairWith order pair0
      match r.requireString "type" with
      | none => .error "getting type from request"
      | some orderType =>
        if orderType != "BUY" && orderType != "SELL" then
          .error "Order type must be BUY or SELL"
        else
          match r.requireString "volume" with
          | none => .error "getting volume from request"
          | some volumeStr =>
            match r.requireString "price" with
            | none => .error "getting price from request"
            | some priceStr =>
              match parseDecimal volumeStr with
              | none => .error "Invalid volume format"
              | some volumeDec =>
                match parseDecimal priceStr with
                | none => .error "Invalid price format"
                | some priceDec =>
                  let lunoOrderType := if orderType == "BUY" then OrderType.bid else OrderType.ask
                  match getMarketInfo pair with
                  | .error _ =>
                    .error ("Unable to create order: Failed to retrieve market information for pair " ++ pair ++ ".")
                  | .ok _ => .call ⟨pair, lunoOrderType, volumeDec, priceDec⟩

/-- `HandleCancelOrder` up to its `StopOrder` call. -/
def HandleCancelOrder (cfg : Config) (r : CallToolRequest) : HandlerStep StopOrderRequest :=
  if !cfg.isAuthenticated then .error ErrAPICredentialsRequired
  else
    match r.requireString "order_id" with
    | none => .error "getting order_id from request"
    | some orderID => .call ⟨orderID⟩

/-- `HandleListOrders` up to its `ListOrders` call.  The source forwards
the optional `pair` argument verbatim — it does not call
`normalizeCurrencyPair`. -/
def HandleListOrders (cfg : Config) (r : CallToolRequest) : HandlerStep ListOrdersRequest :=
  if !cfg.isAuthenticated then .error ErrAPICredentialsRequired
  else
    let pair := r.getString "pair" ""
    let limit := r.getNum "limit" 100
    .call ⟨pair, limit⟩

/-- `HandleListTransactions` up to its `ListTransactions` call. -/
def HandleListTransactions (cfg : Config) (r : CallToolRequest) :
    HandlerStep ListTransactionsRequest :=
  if !cfg.isAuthenticated then .error ErrAPICredentialsRequired
  else
    match r.requireString "account_id" with
    | none => .error "getting account_id from request"
    | some accountIDStr =>
      match parseInt64 accountIDStr with
      | none => .error "Invalid account ID format. Please provide a valid numeric account ID."
      | some accountID =>
        let minRow := r.getNum "min_row" 1
        let maxRow := r.getNum "max_row" 100
        .call ⟨accountID, minRow, maxRow⟩

/-- The slice of `luno.Transaction` that `HandleGetTransaction`
inspects; `detail` stands for the remaining fields. -/
structure Transaction where
  rowIndex : Int
  detail : String
deriving DecidableEq

/-- Result of `HandleGetTransaction`: a structured error result or the
transaction that is serialized on success. -/
inductive GetTransactionResult where
  | errorResult (msg : String)
  | success (txn : Transaction)
deriving DecidableEq

/-- `HandleGetTransaction`, complete: validates both identifiers, lists
transactions through the abstract client `listTransactions` with the
fixed window `MinRow = 0`, `MaxRow = 1000`, and linearly scans the
returned list for the requested row index. -/
def HandleGetTransaction (cfg : Config) (r : CallToolRequest)
    (listTransactions : ListTransactionsRequest → Except String (List Transaction)) :
    GetTransactionResult :=
  if !cfg.isAuthenticated then .errorResult ErrAPICredentialsRequired
  else
    match r.requireString "account_id" with
    | none => .errorResult "getting account_id from request"
    | some accountIDStr =>
      match parseInt64 accountIDStr with
      | none => .errorResult "Invalid account ID format. Please provide a valid numeric account ID."
      | some accountID =>
        match r.requireString "transaction_id" with
        | none => .errorResult "getting transaction_id from request"
        | some transactionIDStr =>
          match parseInt64 transactionIDStr with
          | none => .errorResult "Invalid transaction ID format. Please provide a valid numeric transaction ID."
          | some transactionID =>
            match listTransactions ⟨accountID, 0, 1000⟩ with
            | .error e => .errorResult ("Failed to get transactions: " ++ e)
            | .ok txns =>
              match txns.find? (fun t => t.rowIndex == transactionID) with
              | none => .errorResult ("Transaction not found: " ++ transactionIDStr)
              | some txn => .success txn

/-- Modelled from the spec: the external exchange API has no
single-transaction lookup; its listing operation returns the rows of
the account ledger whose row index lies in the inclusive/exclusive
window `[MinRow, MaxRow)` (spec 4.4 `get_transaction` and glossary,
"Row window"). -/
def windowClient (ledger : List Transaction) (req : ListTransactionsRequest) :
    Except String (List Transaction) :=
  .ok (ledger.filter (fun t => decide (req.minRow ≤ t.rowIndex) && decide (t.rowIndex < req.maxRow)))

/-! ## Configuration loader (`internal/config`) -/

/-- Environment variable name constant. -/
def EnvLunoAPIKeyID : String := "LUNO_API_KEY_ID"

/-- Environment variable name constant. -/
def EnvLunoAPIKeySecret : String := "LUNO_API_SECRET"

/-- Environment variable name constant. -/
def EnvLunoAPIDomain : String := "LUNO_API_DOMAIN"

/-- Environment variable name constant. -/
def EnvLunoAPIDebug : String := "LUNO_API_DEBUG"

/-- Built-in default Luno API domain. -/
def DefaultLunoDomain : String := "api.luno.com"

/-- `maskValue` (config): keep the first four bytes of the string and
replace each remaining byte by an asterisk. -/
def maskValue (s : String) : String :=
  if s.length ≤ 4 then String.mk (List.replicate s.length '*')
  else String.mk (s.data.take 4 ++ List.replicate (s.length - 4) '*')

/-- The `fmt.Printf` diagnostic line `Load` emits for one credential
variable: masked value plus the raw length. -/
def credentialDiag (name value : String) : String :=
  name ++ " value: " ++ maskValue value ++ " (length: " ++ toString value.length ++ ")"

/-- The observable result of `config.Load`: the authentication flag, the
argument of `SetBaseURL` when one is made, the argument of `SetDebug`,
and the `fmt.Printf` diagnostics in emission order. -/
structure LoadedConfig where
  isAuthenticated : Bool
  baseURL : Option String
  debugMode : Bool
  output : List String
deriving DecidableEq

/-- `config.Load`.  `getenv` models `os.Getenv`; `setAuth` models the
external `LunoClient.SetAuth`; `domainOverride` is the parameter.  As
in the source, `strings.TrimSpace` is applied to the environment
variable *names* before lookup, and the debug flag is computed from its
own environment variable (hoisted here before the credential branch;
the emission order of the diagnostics is preserved). -/
def Load (getenv : String → String) (setAuth : String → String → Except String Unit)
    (domainOverride : String) : Except String LoadedConfig :=
  let apiKeyID := getenv (goTrimSpace EnvLunoAPIKeyID)
  let apiKeySecret := getenv (goTrimSpace EnvLunoAPIKeySecret)
  let out := [credentialDiag "LUNO_API_KEY_ID" apiKeyID,
              credentialDiag "LUNO_API_SECRET" apiKeySecret]
  let envDomain := getenv (goTrimSpace EnvLunoAPIDomain)
  let p1 :=
    if envDomain ≠ "" then
      (envDomain, out ++ ["Using domain from environment variable: " ++ envDomain])
    else (DefaultLunoDomain, out)
  let p2 :=
    if domainOverride ≠ "" then
      (domainOverride, p1.2 ++ ["Using domain from command line: " ++ domainOverride])
    else p1
  let domain := p2.1
  let out := p2.2
  let baseURL := if domain ≠ DefaultLunoDomain then some ("https://" ++ domain) else none
  let debugEnv := getenv (goTrimSpace EnvLunoAPIDebug)
  let debugMode :=
    if debugEnv ≠ "" then
      goToLower debugEnv == "true" || debugEnv == "1" || goToLower debugEnv == "yes"
    else false
  let debugOut := if debugMode then ["Debug mode enabled via environment variable"] else []
  if apiKeyID ≠ "" ∧ apiKeySecret ≠ "" then
    match setAuth apiKeyID apiKeySecret with
    | .error e => .error ("failed to set Luno API credentials: " ++ e)
    | .ok _ =>
      .ok ⟨true, baseURL, debugMode,
        out ++ ["Luno client authenticated with provided API credentials."] ++ debugOut⟩
  else
    .ok ⟨false, baseURL, debugMode,
      out ++ ["Luno API credentials not found. Operating in unauthenticated mode."] ++ debugOut⟩

/-! ## Identifying HTTP transport decorator (`internal/config/http_client.go`)

Request objects live in an explicit heap (Go pointers are indices), so
that cloning and header mutation — and hence the frame property on the
caller's request — are observable in the model. -/

/-- The slice of `http.Request` the decorator can observe or mutate. -/
structure HttpRequest where
  method : String
  url : String
  headers : List (String × String)
deriving DecidableEq

/-- Go `http.Header.Get`: first value for the key, `""` when absent.
Every access in the source uses the literal key `User-Agent`, so MIME
canonicalization of keys is dropped. -/
def headersGet (hs : List (String × String)) (key : String) : String :=
  match hs.find? (fun p => p.1 == key) with
  | some p => p.2
  | none => ""

/-- Go `http.Header.Set`: replace the entry for the key, or append one. -/
def headersSet (hs : List (String × String)) (key v : String) : List (String × String) :=
  if hs.any (fun p => p.1 == key) then
    hs.map (fun p => if p.1 == key then (key, v) else p)
  else hs ++ [(key, v)]

/-- A heap of request objects.  `alloc` returns a fresh index, so a
clone is a distinct object. -/
structure Heap where
  cells : List HttpRequest
deriving DecidableEq

/-- Dereference a request pointer. -/
def Heap.read (h : Heap) (p : Nat) : HttpRequest :=
  h.cells.getD p ⟨"", "", []⟩

/-- Write through a request pointer. -/
def Heap.write (h : Heap) (p : Nat) (r : HttpRequest) : Heap :=
  ⟨h.cells.set p r⟩

/-- Allocate a fresh request object, returning the new heap and its
pointer. -/
def Heap.alloc (h : Heap) (r : HttpRequest) : Heap × Nat :=
  (⟨h.cells ++ [r]⟩, h.cells.length)

/-- `MCPRoundTripper.RoundTrip` up to the delegation
`rt.transport.RoundTrip(reqClone)`: clone the request
(`req.Clone(req.Context())` copies the header map), read the clone's
current `User-Agent`, compute the decorated value, set it on the clone,
and hand the clone to the inner transport.  Returns the heap after
those effects and the pointer delivered to the inner transport. -/
def RoundTrip (mcpServer version : String) (h : Heap) (req : Nat) : Heap × Nat :=
  let alloc := h.alloc (h.read req)
  let h1 := alloc.1
  let reqClone := alloc.2
  let currentUA := headersGet (h1.read reqClone).headers "User-Agent"
  let newUA :=
    if currentUA == "" then "(" ++ mcpServer ++ "/" ++ version ++ ")"
    else currentUA ++ " (" ++ mcpServer ++ "/" ++ version ++ ")"
  let h2 := h1.write reqClone
    { h1.read reqClone with headers := headersSet (h1.read reqClone).headers "User-Agent" newUA }
  (h2, reqClone)

/-! ## Helper lemmas -/

theorem perm_pair {α : Type} (a b : α) (l : List α) (h : l.Perm [a, b]) :
    l = [a, b] ∨ l = [b, a] := by
  have hlen := h.length_eq
  match l, hlen with
  | [x, y], _ =>
    have hx : x ∈ [a, b] := h.subset (by simp)
    have hb : b ∈ [x, y] := h.symm.subset (by simp)
    have ha : a ∈ [x, y] := h.symm.subset (by simp)
    have hy : y ∈ [a, b] := h.subset (by simp)
    simp at hx hy ha hb
    rcases hx with rfl | rfl
    · rcases hy with rfl | rfl
      · rcases hb with rfl | rfl <;> simp
      · left; rfl
    · rcases hy with rfl | rfl
      · right; rfl
      · rcases ha with rfl | rfl <;> simp

theorem read_alloc_self (h : Heap) (r : HttpRequest) :
    (h.alloc r).1.read (h.alloc r).2 = r := by
  simp [Heap.alloc, Heap.read, List.getD_eq_getElem?_getD, List.getElem?_append_right]

theorem read_alloc_old (h : Heap) (r : HttpRequest) (p : Nat) (hp : p < h.cells.length) :
    (h.alloc r).1.read p = h.read p := by
  simp [Heap.alloc, Heap.read, List.getD_eq_getElem?_getD, List.getElem?_append, hp]

theorem read_write_self (h : Heap) (p : Nat) (r : HttpRequest) (hp : p < h.cells.length) :
    (h.write p r).read p = r := by
  simp [Heap.write, Heap.read, List.getD_eq_getElem?_getD, List.getElem?_set_self, hp]

theorem read_write_ne (h : Heap) (p q : Nat) (r : HttpRequest) (hne : p ≠ q) :
    (h.write p r).read q = h.read q := by
  simp [Heap.write, Heap.read, List.getD_eq_getElem?_getD, List.getElem?_set_ne, hne]

theorem find?_map_set (hs : List (String × String)) (key v : String)
    (h : hs.any (fun p => p.1 == key) = true) :
    ((hs.map (fun p => if p.1 == key then (key, v) else p)).find? (fun p => p.1 == key)) =
      some (key, v) := by
  induction hs with
  | nil => simp at h
  | cons p t ih =>
    rw [List.map_cons, List.find?_cons]
    by_cases hp : p.1 = key
    · have hif : (if p.1 == key then (key, v) else p) = (key, v) := by simp [hp]
      rw [hif]
      simp
    · have hif : (if p.1 == key then (key, v) else p) = p := by simp [hp]
      rw [hif]
      have hpb : (p.1 == key) = false := by simp [hp]
      rw [hpb]
      have ht : t.any (fun p => p.1 == key) = true := by
        rw [List.any_cons, hpb] at h
        simpa using h
      exact ih ht

theorem find?_append_set (hs : List (String × String)) (key v : String)
    (h : hs.any (fun p => p.1 == key) = false) :
    ((hs ++ [(key, v)]).find? (fun p => p.1 == key)) = some (key, v) := by
  induction hs with
  | nil => simp [List.find?]
  | cons p t ih =>
    rw [List.any_cons, Bool.or_eq_false_iff] at h
    rw [List.cons_append, List.find?_cons, h.1]
    exact ih h.2

theorem headersGet_headersSet (hs : List (String × String)) (key v : String) :
    headersGet (headersSet hs key v) key = v := by
  unfold headersSet
  by_cases h : hs.any (fun p => p.1 == key)
  · rw [if_pos h]
    unfold headersGet
    rw [find?_map_set hs key v h]
  · rw [if_neg h]
    unfold headersGet
    rw [find?_append_set hs key v (Bool.not_eq_true _ ▸ eq_false_of_ne_true h)]

/-! ## C3: the decorated User-Agent header -/

/-- C3 (confirmed): for every request passed through
`MCPRoundTripper.RoundTrip` and every (original User-Agent, client
name, version) triple, the `User-Agent` header of the request delivered
to the inner transport equals `"(<name>/<version>)"` when the original
User-Agent is empty, and `"<original> (<name>/<version>)"` otherwise. -/
theorem RoundTrip_decorates_user_agent (mcpServer version : String) (h : Heap) (p : Nat) :
    headersGet
        (((RoundTrip mcpServer version h p).1.read (RoundTrip mcpServer version h p).2).headers)
        "User-Agent" =
      if headersGet (h.read p).headers "User-Agent" = "" then
        "(" ++ mcpServer ++ "/" ++ version ++ ")"
      else
        headersGet (h.read p).headers "User-Agent" ++ " (" ++ mcpServer ++ "/" ++ version ++ ")" := by
  unfold RoundTrip
  simp only [read_alloc_self]
  rw [read_write_self _ _ _ (by simp [Heap.alloc])]
  rw [headersGet_headersSet]
  by_cases hua : headersGet (h.read p).headers "User-Agent" = ""
  · simp [hua]
  · simp [hua]

/-! ## C4: the caller's request object is not mutated -/

/-- C4 (confirmed): for every request passed through
`MCPRoundTripper.RoundTrip`, the caller's original request object is
unchanged after the call: the cell at the original pointer (method, URL
and header map alike) compares equal to its pre-call state; only the
freshly allocated clone is mutated. -/
theorem RoundTrip_preserves_original (mcpServer version : String) (h : Heap) (p : Nat)
    (hp : p < h.cells.length) :
    (RoundTrip mcpServer version h p).1.read p = h.read p := by
  unfold RoundTrip
  rw [read_write_ne _ _ _ _ (by simp [Heap.alloc]; omega)]
  exact read_alloc_old _ _ _ hp

/-- Witness for `RoundTrip_preserves_original` at a concrete heap
holding one request with a `User-Agent` header. -/
theorem RoundTrip_preserves_original_witness :
    (RoundTrip "luno-mcp" "1.0.0"
        ⟨[⟨"GET", "https://api.luno.com", [("User-Agent", "OriginalClient/1.0")]⟩]⟩ 0).1.read 0 =
      (⟨[⟨"GET", "https://api.luno.com", [("User-Agent", "OriginalClient/1.0")]⟩]⟩ : Heap).read 0 :=
  RoundTrip_preserves_original "luno-mcp" "1.0.0" _ 0 (by decide)

/-! ## C6: the normalizer against the spec's reference function -/

/-- C6 counterexample: the alias table is a Go map, whose `range`
iteration order is unspecified; `[BITCOIN ↦ XBT, BTC ↦ XBT]` is a
permutation of the table, and under that order the input `"bitcoinc"`
normalizes to `"XXBT"` while the spec's insertion-order reference
yields `"XBTC"`.  So `normalizeCurrencyPair` does not equal the
reference function on every input for every admissible execution. -/
theorem normalizeCurrencyPair_order_counterexample :
    List.Perm [("BITCOIN", "XBT"), ("BTC", "XBT")] currencyMappings ∧
    normalizeCurrencyPairWith [("BITCOIN", "XBT"), ("BTC", "XBT")] "bitcoinc" = "XXBT" ∧
    specNormalize "bitcoinc" = "XBTC" ∧
    normalizeCurrencyPairWith [("BITCOIN", "XBT"), ("BTC", "XBT")] "bitcoinc" ≠
      specNormalize "bitcoinc" :=
  ⟨by decide, by decide, by decide, by decide⟩

/-- C6 (amended): when the alias map happens to be iterated in insertion
order, `normalizeCurrencyPair` equals the spec's reference function on
every input; and under every iteration order of the alias table the
four cited examples normalize as stated (`btc-zar`, `BTC/ZAR` and
`bitcoin_usd` to `XBTZAR`/`XBTZAR`/`XBTUSD`, `ethzar` to `ETHZAR`). -/
theorem normalizeCurrencyPair_matches_spec (ord : List (String × String))
    (h : ord.Perm currencyMappings) :
    (∀ x, normalizeCurrencyPair x = specNormalize x) ∧
    normalizeCurrencyPairWith ord "btc-zar" = "XBTZAR" ∧
    normalizeCurrencyPairWith ord "BTC/ZAR" = "XBTZAR" ∧
    normalizeCurrencyPairWith ord "ethzar" = "ETHZAR" ∧
    normalizeCurrencyPairWith ord "bitcoin_usd" = "XBTUSD" := by
  rcases perm_pair _ _ _ h with rfl | rfl
  · exact ⟨fun x => rfl, by decide, by decide, by decide, by decide⟩
  · exact ⟨fun x => rfl, by decide, by decide, by decide, by decide⟩

/-- Witness for `normalizeCurrencyPair_matches_spec` at the insertion
order itself. -/
theorem normalizeCurrencyPair_matches_spec_witness :
    (∀ x, normalizeCurrencyPair x = specNormalize x) ∧
    normalizeCurrencyPairWith currencyMappings "btc-zar" = "XBTZAR" ∧
    normalizeCurrencyPairWith currencyMappings "BTC/ZAR" = "XBTZAR" ∧
    normalizeCurrencyPairWith currencyMappings "ethzar" = "ETHZAR" ∧
    normalizeCurrencyPairWith currencyMappings "bitcoin_usd" = "XBTUSD" :=
  normalizeCurrencyPair_matches_spec currencyMappings (List.Perm.refl _)

/-! ## C7: idempotence of normalization -/

/-- C7 counterexample: normalization is not idempotent on every input:
`"bitcoinc"` normalizes to `"XBTC"` (the `BITCOIN ↦ XBT` replacement
manufactures a fresh `BTC` occurrence), and renormalizing gives
`"XXBT"`. -/
theorem normalizeCurrencyPair_not_idempotent :
    normalizeCurrencyPair "bitcoinc" = "XBTC" ∧
    normalizeCurrencyPair (normalizeCurrencyPair "bitcoinc") = "XXBT" ∧
    normalizeCurrencyPair (normalizeCurrencyPair "bitcoinc") ≠
      normalizeCurrencyPair "bitcoinc" :=
  ⟨by decide, by decide, by decide⟩

/-- C7 (amended): normalization is idempotent on the spec's tested
inputs (`btc-zar`, `BTC/ZAR`, `ethzar`, `bitcoin_usd`), though not on
every input string. -/
theorem normalizeCurrencyPair_idempotent_on_tested_inputs :
    normalizeCurrencyPair (normalizeCurrencyPair "btc-zar") = normalizeCurrencyPair "btc-zar" ∧
    normalizeCurrencyPair (normalizeCurrencyPair "BTC/ZAR") = normalizeCurrencyPair "BTC/ZAR" ∧
    normalizeCurrencyPair (normalizeCurrencyPair "ethzar") = normalizeCurrencyPair "ethzar" ∧
    normalizeCurrencyPair (normalizeCurrencyPair "bitcoin_usd") =
      normalizeCurrencyPair "bitcoin_usd" :=
  ⟨by decide, by decide, by decide, by decide⟩

/-! ## C2: authenticated tools check credentials first -/

/-- C2 (confirmed): each of the six authenticated tools
(`get_balances`, `create_order`, `cancel_order`, `list_orders`,
`list_transactions`, `get_transaction`), invoked with a `Config` whose
`IsAuthenticated` is false, returns the structured
credentials-required error result and makes no exchange-client call —
for every request, including ones with missing or malformed
parameters, so the authentication check precedes all parameter
validation; the result is independent of the client functions. -/
theorem authenticated_tools_require_credentials (cfg : Config)
    (hcfg : cfg.isAuthenticated = false) :
    (∀ r, HandleGetBalances cfg r = .error ErrAPICredentialsRequired) ∧
    (∀ (Dec : Type) (ord : List (String × String)) (pd : String → Option Dec)
        (gmi : String → Except String String) (r : CallToolRequest),
      HandleCreateOrder ord cfg pd gmi r = .error ErrAPICredentialsRequired) ∧
    (∀ r, HandleCancelOrder cfg r = .error ErrAPICredentialsRequired) ∧
    (∀ r, HandleListOrders cfg r = .error ErrAPICredentialsRequired) ∧
    (∀ r, HandleListTransactions cfg r = .error ErrAPICredentialsRequired) ∧
    (∀ r lt, HandleGetTransaction cfg r lt = .errorResult ErrAPICredentialsRequired) := by
  refine ⟨fun r => ?_, fun Dec ord pd gmi r => ?_, fun r => ?_, fun r => ?_, fun r => ?_,
    fun r lt => ?_⟩
  · simp [HandleGetBalances, hcfg]
  · simp [HandleCreateOrder, hcfg]
  · simp [HandleCancelOrder, hcfg]
  · simp [HandleListOrders, hcfg]
  · simp [HandleListTransactions, hcfg]
  · simp [HandleGetTransaction, hcfg]

/-- Witness for `authenticated_tools_require_credentials` at the
unauthenticated config and a request with no arguments at all. -/
theorem authenticated_tools_require_credentials_witness :
    HandleGetBalances ⟨false⟩ ⟨[], []⟩ = .error ErrAPICredentialsRequired ∧
    HandleCreateOrder currencyMappings ⟨false⟩ (fun _ => (none : Option String))
      (fun _ => .ok "") ⟨[], []⟩ = .error ErrAPICredentialsRequired ∧
    HandleCancelOrder ⟨false⟩ ⟨[], []⟩ = .error ErrAPICredentialsRequired ∧
    HandleListOrders ⟨false⟩ ⟨[], []⟩ = .error ErrAPICredentialsRequired ∧
    HandleListTransactions ⟨false⟩ ⟨[], []⟩ = .error ErrAPICredentialsRequired ∧
    HandleGetTransaction ⟨false⟩ ⟨[], []⟩ (fun _ => .ok []) =
      .errorResult ErrAPICredentialsRequired := by
  have h := authenticated_tools_require_credentials ⟨false⟩ rfl
  exact ⟨h.1 _, h.2.1 String currencyMappings _ _ _, h.2.2.1 _, h.2.2.2.1 _,
    h.2.2.2.2.1 _, h.2.2.2.2.2 _ _⟩

/-! ## C1: pair-bearing tools normalize before forwarding -/

/-- C1 counterexample: `HandleListOrders` does not apply
`normalizeCurrencyPair` to its `pair` parameter — called with
`pair="btc/zar"` it forwards `"btc/zar"` verbatim to the exchange
client, although normalization would produce `"XBTZAR"`. -/
theorem list_orders_not_normalized :
    HandleListOrders ⟨true⟩ ⟨[("pair", "btc/zar")], []⟩ = .call ⟨"btc/zar", 100⟩ ∧
    normalizeCurrencyPair "btc/zar" = "XBTZAR" ∧
    ("btc/zar" : String) ≠ "XBTZAR" :=
  ⟨by decide, by decide, by decide⟩

/-- C1 (amended): the seven pair-bearing handlers other than
`list_orders` (`get_ticker`, `get_order_book`, `get_tickers`,
`get_markets_info`, `get_candles`, `list_trades`, `create_order`)
apply `normalizeCurrencyPair` to every pair-shaped parameter value
before placing it in the request forwarded to the exchange client
(comma-separated list parameters element-wise), and `get_ticker`
called with `pair="btc/zar"` forwards `pair="XBTZAR"` upstream for
every iteration order of the alias map; `list_orders` forwards its
`pair` parameter verbatim (see `list_orders_not_normalized`). -/
theorem pair_tools_apply_normalizer (ord : List (String × String)) (cfg : Config)
    (r : CallToolRequest) (p : String) :
    (r.requireString "pair" = some p →
      HandleGetTicker ord cfg r = .call ⟨normalizeCurrencyPairWith ord p⟩) ∧
    (r.requireString "pair" = some p →
      HandleGetOrderBook ord cfg r = .call ⟨normalizeCurrencyPairWith ord p⟩) ∧
    (r.getString "pair" "" = p → p ≠ "" →
      HandleGetTickers ord cfg r = .call ⟨(goSplit p ",").map (normalizeCurrencyPairWith ord)⟩) ∧
    (r.getString "pair" "" = p → p ≠ "" →
      HandleGetMarketsInfo ord cfg r =
        .call ⟨(goSplit p ",").map (normalizeCurrencyPairWith ord)⟩) ∧
    (∀ now c, r.requireString "pair" = some p →
      HandleGetCandles ord cfg now r = .call c → c.pair = normalizeCurrencyPairWith ord p) ∧
    (∀ c, r.requireString "pair" = some p →
      HandleListTrades ord cfg r = .call c → c.pair = normalizeCurrencyPairWith ord p) ∧
    (∀ (Dec : Type) (pd : String → Option Dec) (gmi : String → Except String String)
        (c : PostLimitOrderRequest Dec), r.requireString "pair" = some p →
      HandleCreateOrder ord cfg pd gmi r = .call c → c.pair = normalizeCurrencyPairWith ord p) ∧
    (ord.Perm currencyMappings →
      HandleGetTicker ord cfg ⟨[("pair", "btc/zar")], []⟩ = .call ⟨"XBTZAR"⟩) := by
  refine ⟨fun h => ?_, fun h => ?_, fun h hne => ?_, fun h hne => ?_,
    fun now c h hc => ?_, fun c h hc => ?_, fun Dec pd gmi c h hc => ?_, fun hperm => ?_⟩
  · simp [HandleGetTicker, h]
  · simp [HandleGetOrderBook, h]
  · simp [HandleGetTickers, h, hne]
  · simp [HandleGetMarketsInfo, h, hne]
  · simp only [HandleGetCandles, h] at hc
    rcases hd : r.requireNum "duration" with _ | d <;> rw [hd] at hc
    · cases hc
    · cases hc
      rfl
  · simp only [HandleListTrades, h] at hc
    repeat split at hc
    all_goals (cases hc <;> rfl)
  · simp only [HandleCreateOrder, h] at hc
    split at hc
    · cases hc
    · split at hc
      · cases hc
      · split at hc
        · cases hc
        · split at hc
          · cases hc
          · split at hc
            · cases hc
            · split at hc
              · cases hc
              · split at hc
                · cases hc
                · split at hc
                  · cases hc
                  · cases hc
                    rfl
  · rcases perm_pair _ _ _ hperm with rfl | rfl <;>
    · simp only [HandleGetTicker]
      rw [show (CallToolRequest.mk [("pair", "btc/zar")] []).requireString "pair" =
        some "btc/zar" from by decide]
      decide

/-- Witness for `pair_tools_apply_normalizer`: the end-to-end
`get_ticker` scenario under the insertion order, and `get_tickers`
normalizing a comma-separated list element-wise. -/
theorem pair_tools_apply_normalizer_witness :
    HandleGetTicker currencyMappings ⟨false⟩ ⟨[("pair", "btc/zar")], []⟩ = .call ⟨"XBTZAR"⟩ ∧
    HandleGetTickers currencyMappings ⟨false⟩ ⟨[("pair", "XBTZAR,btc-usd")], []⟩ =
      .call ⟨["XBTZAR", "XBTUSD"]⟩ := by
  constructor
  · exact (pair_tools_apply_normalizer currencyMappings ⟨false⟩ ⟨[("pair", "btc/zar")], []⟩
      "btc/zar").2.2.2.2.2.2.2 (List.Perm.refl _)
  · have h := (pair_tools_apply_normalizer currencyMappings ⟨false⟩
      ⟨[("pair", "XBTZAR,btc-usd")], []⟩ "XBTZAR,btc-usd").2.2.1 (by decide) (by decide)
    rw [h]
    decide

/-! ## C10: get_transaction scans a fixed 1000-row window -/

/-- C10 (confirmed): `HandleGetTransaction` always lists transactions
with the fixed window `MinRow = 0`, `MaxRow = 1000` regardless of the
requested `transaction_id` (its result depends only on the client's
answer for that window), returns the "Transaction not found" error
exactly when no transaction in the returned window has `RowIndex`
equal to the parsed `transaction_id`, and consequently — under the
spec-modelled row-window semantics of the external listing API
(`windowClient`) — a transaction whose row index lies at 1000 or
beyond is reported as not found even when it exists in the ledger. -/
theorem HandleGetTransaction_fixed_window :
    (∀ cfg r lt1 lt2, (∀ a, lt1 ⟨a, 0, 1000⟩ = lt2 ⟨a, 0, 1000⟩) →
      HandleGetTransaction cfg r lt1 = HandleGetTransaction cfg r lt2) ∧
    (∀ r lt aStr tStr a t txns,
      r.requireString "account_id" = some aStr → parseInt64 aStr = some a →
      r.requireString "transaction_id" = some tStr → parseInt64 tStr = some t →
      lt ⟨a, 0, 1000⟩ = .ok txns →
      (HandleGetTransaction ⟨true⟩ r lt = .errorResult ("Transaction not found: " ++ tStr) ↔
        ∀ txn ∈ txns, txn.rowIndex ≠ t)) ∧
    (∀ ledger r aStr tStr a t,
      r.requireString "account_id" = some aStr → parseInt64 aStr = some a →
      r.requireString "transaction_id" = some tStr → parseInt64 tStr = some t →
      1000 ≤ t → (∃ txn ∈ ledger, txn.rowIndex = t) →
      HandleGetTransaction ⟨true⟩ r (windowClient ledger) =
        .errorResult ("Transaction not found: " ++ tStr)) := by
  refine ⟨fun cfg r lt1 lt2 hagree => ?_, fun r lt aStr tStr a t txns ha hpa ht hpt hlt => ?_,
    fun ledger r aStr tStr a t ha hpa ht hpt hge hex => ?_⟩
  · simp only [HandleGetTransaction]
    split
    · rfl
    · rcases h1 : r.requireString "account_id" with _ | aStr <;> simp only [h1]
      rcases h2 : parseInt64 aStr with _ | aid <;> simp only [h2]
      rcases h3 : r.requireString "transaction_id" with _ | tStr <;> simp only [h3]
      rcases h4 : parseInt64 tStr with _ | tid <;> simp only [h4]
      rw [hagree aid]
  · have key : HandleGetTransaction ⟨true⟩ r lt =
        match txns.find? (fun txn => txn.rowIndex == t) with
        | none => .errorResult ("Transaction not found: " ++ tStr)
        | some txn => .success txn := by
      simp [HandleGetTransaction, ha, hpa, ht, hpt, hlt]
    rw [key]
    rcases hf : txns.find? (fun txn => txn.rowIndex == t) with _ | txn <;> simp only [hf]
    · constructor
      · intro _ txn hmem
        have hfn := List.find?_eq_none.mp hf txn hmem
        simpa using hfn
      · intro _
        trivial
    · constructor
      · intro hcontra
        simp at hcontra
      · intro hall
        exfalso
        exact hall txn (List.mem_of_find?_eq_some hf) (by simpa using List.find?_some hf)
  · have hf : ((ledger.filter (fun txn => decide (0 ≤ txn.rowIndex) &&
        decide (txn.rowIndex < 1000))).find? (fun txn => txn.rowIndex == t)) = none := by
      apply List.find?_eq_none.mpr
      intro x hx
      have hmem := List.mem_filter.mp hx
      simp only [Bool.and_eq_true, decide_eq_true_eq] at hmem
      simp only [beq_iff_eq]
      omega
    simp [HandleGetTransaction, ha, hpa, ht, hpt, windowClient, hf]

/-- Witness for `HandleGetTransaction_fixed_window`: the ledger holds
row 1500, yet requesting transaction 1500 yields the not-found
error. -/
theorem HandleGetTransaction_fixed_window_witness :
    HandleGetTransaction ⟨true⟩ ⟨[("account_id", "123"), ("transaction_id", "1500")], []⟩
      (windowClient [⟨1500, "t"⟩]) = .errorResult "Transaction not found: 1500" :=
  HandleGetTransaction_fixed_window.2.2 [⟨1500, "t"⟩] _ "123" "1500" 123 1500
    (by decide) (by decide) (by decide) (by decide) (by decide)
    ⟨⟨1500, "t"⟩, by decide, by decide⟩

/-! ## C5, C8, C9: the configuration loader -/


/-- A `SetAuth` model that always succeeds (luno-go's `SetAuth` only
rejects empty credentials). -/
def setAuthOk : String → String → Except String Unit := fun _ _ => .ok ()

/-- Environment with a whitespace-only key ID and a nonempty secret. -/
def envWhitespaceKey : String → String := fun n =>
  if n == "LUNO_API_KEY_ID" then " "
  else if n == "LUNO_API_SECRET" then "secret123"
  else ""

/-- C5 counterexample: in the source, `strings.TrimSpace` is applied to
the environment variable *names* (a no-op), not to the values, so a
whitespace-only key ID — empty after trimming — still counts as
non-empty and `Load` returns `IsAuthenticated = true`, contradicting
the claimed "non-empty after trimming" condition. -/
theorem Load_counts_untrimmed_values :
    goTrimSpace " " = "" ∧
    (Load envWhitespaceKey setAuthOk "").toOption.map (fun c => c.isAuthenticated) =
      some true :=
  ⟨by decide, by decide⟩

/-- C5 (amended): `Load` returns `IsAuthenticated = true` iff both raw
credential values are non-empty — no trimming is applied to the values
(`TrimSpace` operates on the variable names, where it is a no-op); and
when either value is empty, `Load` succeeds with
`IsAuthenticated = false` rather than returning an error. -/
theorem Load_isAuthenticated_iff (getenv : String → String)
    (setAuth : String → String → Except String Unit) (domainOverride : String) :
    (∀ c, Load getenv setAuth domainOverride = .ok c →
      (c.isAuthenticated = true ↔
        getenv EnvLunoAPIKeyID ≠ "" ∧ getenv EnvLunoAPIKeySecret ≠ "")) ∧
    (getenv EnvLunoAPIKeyID = "" ∨ getenv EnvLunoAPIKeySecret = "" →
      ∃ c, Load getenv setAuth domainOverride = .ok c ∧ c.isAuthenticated = false) := by
  have e1 : goTrimSpace EnvLunoAPIKeyID = EnvLunoAPIKeyID := by decide
  have e2 : goTrimSpace EnvLunoAPIKeySecret = EnvLunoAPIKeySecret := by decide
  constructor
  · intro c hc
    simp only [Load, e1, e2] at hc
    by_cases hks : getenv EnvLunoAPIKeyID ≠ "" ∧ getenv EnvLunoAPIKeySecret ≠ ""
    · rw [if_pos hks] at hc
      rcases hsa : setAuth (getenv EnvLunoAPIKeyID) (getenv EnvLunoAPIKeySecret) with e | u <;>
        simp only [hsa] at hc
      · cases hc
      · injection hc with hrec
        rw [← hrec]
        simp [hks]
    · rw [if_neg hks] at hc
      injection hc with hrec
      rw [← hrec]
      simpa using hks
  · intro hemp
    have hks : ¬(getenv EnvLunoAPIKeyID ≠ "" ∧ getenv EnvLunoAPIKeySecret ≠ "") := by
      rcases hemp with h | h <;> simp [h]
    rcases hL : Load getenv setAuth domainOverride with e | c
    · exfalso
      simp only [Load, e1, e2] at hL
      rw [if_neg hks] at hL
      cases hL
    · refine ⟨c, rfl, ?_⟩
      simp only [Load, e1, e2] at hL
      rw [if_neg hks] at hL
      injection hL with hrec
      rw [← hrec]

/-- Witness for `Load_isAuthenticated_iff` at the whitespace-key
environment. -/
theorem Load_isAuthenticated_iff_witness :
    (∀ c, Load envWhitespaceKey setAuthOk "" = .ok c →
      (c.isAuthenticated = true ↔
        envWhitespaceKey EnvLunoAPIKeyID ≠ "" ∧ envWhitespaceKey EnvLunoAPIKeySecret ≠ "")) ∧
    (envWhitespaceKey EnvLunoAPIKeyID = "" ∨ envWhitespaceKey EnvLunoAPIKeySecret = "" →
      ∃ c, Load envWhitespaceKey setAuthOk "" = .ok c ∧ c.isAuthenticated = false) :=
  Load_isAuthenticated_iff envWhitespaceKey setAuthOk ""



/-- Domain resolution as the spec words it: explicit override beats the
environment variable, which beats the built-in default. -/
def specResolvedDomain (g : String → String) (ov : String) : String :=
  if ov ≠ "" then ov
  else if g EnvLunoAPIDomain ≠ "" then g EnvLunoAPIDomain
  else DefaultLunoDomain

/-- C9 (confirmed): for every combination of override parameter,
environment domain variable and default, `Load` resolves the domain
with precedence override > environment > default, and points the
client's base URL at `https://<domain>` iff the resolved domain
differs from the default. -/
theorem Load_domain_precedence (getenv : String → String)
    (setAuth : String → String → Except String Unit) (ov : String) :
    ∀ c, Load getenv setAuth ov = .ok c →
      c.baseURL = if specResolvedDomain getenv ov ≠ DefaultLunoDomain
        then some ("https://" ++ specResolvedDomain getenv ov) else none := by
  intro c hc
  have e1 : goTrimSpace EnvLunoAPIKeyID = EnvLunoAPIKeyID := by decide
  have e2 : goTrimSpace EnvLunoAPIKeySecret = EnvLunoAPIKeySecret := by decide
  have e3 : goTrimSpace EnvLunoAPIDomain = EnvLunoAPIDomain := by decide
  simp only [Load, e1, e2, e3] at hc
  by_cases hks : getenv EnvLunoAPIKeyID ≠ "" ∧ getenv EnvLunoAPIKeySecret ≠ ""
  · rw [if_pos hks] at hc
    rcases hsa : setAuth (getenv EnvLunoAPIKeyID) (getenv EnvLunoAPIKeySecret) with e | u <;>
      simp only [hsa] at hc
    · cases hc
    · injection hc with hrec
      rw [← hrec]
      unfold specResolvedDomain
      by_cases hov : ov ≠ "" <;> by_cases henv : getenv EnvLunoAPIDomain ≠ "" <;>
        simp [hov, henv]
  · rw [if_neg hks] at hc
    injection hc with hrec
    rw [← hrec]
    unfold specResolvedDomain
    by_cases hov : ov ≠ "" <;> by_cases henv : getenv EnvLunoAPIDomain ≠ "" <;>
      simp [hov, henv]

/-- Environment that sets only the domain variable. -/
def envStagingDomain : String → String := fun n =>
  if n == "LUNO_API_DOMAIN" then "api.staging.luno.com" else ""

/-- Witness for `Load_domain_precedence`: both the environment variable
and the override are set; the override wins and the base URL is
repointed. -/
theorem Load_domain_precedence_witness :
    (Load envStagingDomain setAuthOk "override.luno.com").toOption.map (fun c => c.baseURL) =
      some (if specResolvedDomain envStagingDomain "override.luno.com" ≠ DefaultLunoDomain
        then some ("https://" ++ specResolvedDomain envStagingDomain "override.luno.com")
        else none) := by
  have hc : Load envStagingDomain setAuthOk "override.luno.com" =
      .ok ⟨false, some "https://override.luno.com", false,
        ["LUNO_API_KEY_ID value:  (length: 0)",
         "LUNO_API_SECRET value:  (length: 0)",
         "Using domain from environment variable: api.staging.luno.com",
         "Using domain from command line: override.luno.com",
         "Luno API credentials not found. Operating in unauthenticated mode."]⟩ := by rfl
  rw [hc]
  rw [← Load_domain_precedence envStagingDomain setAuthOk "override.luno.com" _ hc]
  rfl



/-- Environment with secret `abcde`. -/
def envSecretA : String → String := fun n =>
  if n == "LUNO_API_KEY_ID" then "key12345"
  else if n == "LUNO_API_SECRET" then "abcde"
  else ""

/-- Environment identical to `envSecretA` except the secret is
`abcdef` — same 4-character prefix, different length. -/
def envSecretB : String → String := fun n =>
  if n == "LUNO_API_KEY_ID" then "key12345"
  else if n == "LUNO_API_SECRET" then "abcdef"
  else ""

/-- C8 counterexample: the mask is one asterisk per remaining byte and
`Load` also prints the raw length, so two secrets sharing the same
4-character prefix but of different lengths produce different
diagnostic output — the mask is not fixed-length and reveals the
secret's length. -/
theorem Load_mask_reveals_length :
    ("abcde" : String).data.take 4 = ("abcdef" : String).data.take 4 ∧
    maskValue "abcde" = "abcd*" ∧ maskValue "abcdef" = "abcd**" ∧
    (Load envSecretA setAuthOk "").toOption.map (fun c => c.output) ≠
      (Load envSecretB setAuthOk "").toOption.map (fun c => c.output) :=
  ⟨by decide, by decide, by decide, by decide⟩

/-- C8 (amended): the diagnostic output discloses nothing of the secret
beyond its 4-character prefix and its length: `maskValue` depends only
on (first 4 characters, length), and `Load` run on two environments
that differ only in the secret — with equal prefixes and equal
lengths — produces identical results (given `SetAuth` succeeds). -/
theorem Load_masks_secret :
    (∀ s t : String, s.data.take 4 = t.data.take 4 → s.length = t.length →
      maskValue s = maskValue t) ∧
    (∀ (g1 g2 : String → String) (setAuth : String → String → Except String Unit)
        (ov : String),
      (∀ n, n ≠ EnvLunoAPIKeySecret → g1 n = g2 n) →
      (g1 EnvLunoAPIKeySecret).data.take 4 = (g2 EnvLunoAPIKeySecret).data.take 4 →
      (g1 EnvLunoAPIKeySecret).length = (g2 EnvLunoAPIKeySecret).length →
      (∀ k s, setAuth k s = .ok ()) →
      Load g1 setAuth ov = Load g2 setAuth ov) := by
  have hA : ∀ s t : String, s.data.take 4 = t.data.take 4 → s.length = t.length →
      maskValue s = maskValue t := by
    intro s t htake hlen
    unfold maskValue
    rw [hlen, htake]
  refine ⟨hA, ?_⟩
  intro g1 g2 setAuth ov hagree htake hlen hsa
  have e1 : goTrimSpace EnvLunoAPIKeyID = EnvLunoAPIKeyID := by decide
  have e2 : goTrimSpace EnvLunoAPIKeySecret = EnvLunoAPIKeySecret := by decide
  have e3 : goTrimSpace EnvLunoAPIDomain = EnvLunoAPIDomain := by decide
  have e4 : goTrimSpace EnvLunoAPIDebug = EnvLunoAPIDebug := by decide
  have hid : g1 EnvLunoAPIKeyID = g2 EnvLunoAPIKeyID := hagree _ (by decide)
  have hdom : g1 EnvLunoAPIDomain = g2 EnvLunoAPIDomain := hagree _ (by decide)
  have hdbg : g1 EnvLunoAPIDebug = g2 EnvLunoAPIDebug := hagree _ (by decide)
  have hdiag : credentialDiag "LUNO_API_SECRET" (g1 EnvLunoAPIKeySecret) =
      credentialDiag "LUNO_API_SECRET" (g2 EnvLunoAPIKeySecret) := by
    unfold credentialDiag
    rw [hA _ _ htake hlen, hlen]
  have hempty : g1 EnvLunoAPIKeySecret = "" ↔ g2 EnvLunoAPIKeySecret = "" := by
    constructor <;> intro h
    · have hz : (g2 EnvLunoAPIKeySecret).data.length = 0 := by
        have hl := hlen
        rw [h] at hl
        exact hl.symm
      have hd : (g2 EnvLunoAPIKeySecret).data = [] := List.length_eq_zero.mp hz
      exact congrArg String.mk hd
    · have hz : (g1 EnvLunoAPIKeySecret).data.length = 0 := by
        have hl := hlen
        rw [h] at hl
        exact hl
      have hd : (g1 EnvLunoAPIKeySecret).data = [] := List.length_eq_zero.mp hz
      exact congrArg String.mk hd
  simp only [Load, e1, e2, e3, e4]
  rw [hid, hdom, hdbg, hdiag]
  by_cases hemp : g1 EnvLunoAPIKeySecret = ""
  · have hemp2 : g2 EnvLunoAPIKeySecret = "" := hempty.mp hemp
    rw [hemp, hemp2]
  · have hemp2 : g2 EnvLunoAPIKeySecret ≠ "" := fun h => hemp (hempty.mpr h)
    by_cases hkid : g2 EnvLunoAPIKeyID = ""
    · simp [hkid]
    · simp [hkid, hemp, hemp2, hsa]

/-- Witness for `Load_masks_secret`: two 9-character secrets with the
same prefix yield the same mask and identical `Load` results. -/
theorem Load_masks_secret_witness :
    maskValue "abcd11111" = maskValue "abcd22222" ∧
    Load (fun n => if n == "LUNO_API_SECRET" then "abcd11111" else envSecretA n) setAuthOk "" =
      Load (fun n => if n == "LUNO_API_SECRET" then "abcd22222" else envSecretA n) setAuthOk "" := by
  constructor
  · exact Load_masks_secret.1 "abcd11111" "abcd22222" (by decide) (by decide)
  · apply Load_masks_secret.2
    · intro n hn
      have hb : (n == "LUNO_API_SECRET") = false := by
        simp only [EnvLunoAPIKeySecret] at hn
        simpa using hn
      simp [hb]
    · decide
    · decide
    · intro k s
      rfl

end LunoMcp
